import Mathlib

/-!
Shallow embedding of the Gwers diagnostic core: the `Trace` scope-trace
recorder (trace.h / trace.cpp), the `Exception` failure record and its
`assert` / `base_catch` static functions (exception.h / exception.cpp), and
the diagnostics-disabled expansions of the GWX_ASSERT / GWX_CHECK macros.

The thread-local statics `Trace::_stack` and `Trace::_lock` are modelled as
an explicit state record `TraceState` threaded through every operation.
`std::vector::pop_back` on an empty vector is undefined behaviour, so the
destructor is Option-valued: `none` marks that branch.
-/

namespace Gwers

/-- The thread-local static state of the Trace class: the vector
`_stack` of recorded function names and the boolean `_lock` flag
(both `thread_local static`, initialised to empty and `false`). -/
structure TraceState where
  _stack : List String
  _lock : Bool
deriving DecidableEq

namespace Trace

/-- `Trace::Trace(const string& fname)`: `_stack.emplace_back(fname)` —
appends unconditionally, never consults `_lock`. -/
def push (fname : String) (s : TraceState) : TraceState :=
  { s with _stack := s._stack ++ [fname] }

/-- `Trace::~Trace()`: `if (!_lock) _stack.pop_back();`. The pop is not
guarded by an emptiness check; `pop_back` on an empty vector is undefined
behaviour, modelled as `none`. When `_lock` holds the destructor is a
no-op. -/
def destruct (s : TraceState) : Option TraceState :=
  if s._lock then
    some s
  else
    match s._stack with
    | [] => none
    | _ :: _ => some { s with _stack := s._stack.dropLast }

/-- `Trace::lock()`: `_lock = true;`. -/
def lock (s : TraceState) : TraceState :=
  { s with _lock := true }

/-- `Trace::flush()`: `_stack.clear(); _lock = false;`. -/
def flush (_s : TraceState) : TraceState :=
  { _stack := [], _lock := false }

/-- The read-only view exposed by `Trace::begin()` / `Trace::end()`:
the current `_stack`, oldest entry first. -/
def snapshot (s : TraceState) : List String :=
  s._stack

/-- A sequence of scope entries: one `Trace` constructor per label, in
list order. -/
def pushAll (ls : List String) (s : TraceState) : TraceState :=
  ls.foldl (fun t l => push l t) s

/-- `n` consecutive `Trace` destructor calls (innermost scope first, as
unwinding runs them): `none` as soon as one pops an empty stack. -/
def releaseAll : Nat → TraceState → Option TraceState
  | 0, s => some s
  | n + 1, s => (destruct s).bind (releaseAll n)

end Trace

/-- `Gwers::Exception`: the immutable failure record with fields
`_who`, `_what`, `_line`. -/
structure Exception where
  _who : String
  _what : String
  _line : Int
deriving DecidableEq

namespace Exception

/-- `Exception::Exception(who, what, line)`: stores the three fields,
then calls `Trace::lock()` on the calling thread's recorder. Returns the
constructed record together with the updated recorder state. -/
def construct (who what : String) (line : Int) (s : TraceState) :
    Exception × TraceState :=
  (⟨who, what, line⟩, Trace.lock s)

/-- `Exception::who()`: returns `_who`. -/
def who (e : Exception) : String :=
  e._who

/-- `Exception::what()`: returns `_what`. -/
def what (e : Exception) : String :=
  e._what

/-- `Exception::line()`: returns `_line`. -/
def line (e : Exception) : Int :=
  e._line

/-- A declared exception variant, as produced by the GWX_EXCEPTION(X)
macro: its `origin` is fixed by the enclosing GWX_DECLARE(N) and its
`kind` is the variant's own name; only the line is per-instance. The
variant's constructor `X(l)` is `Exception(origin, kind, l)`. -/
structure Variant where
  origin : String
  kind : String
deriving DecidableEq

/-- `throw X(line)` for a declared variant X: constructs the record
(which locks the trace) and raises it. -/
def throwX (v : Variant) (L : Int) (s : TraceState) : Exception × TraceState :=
  construct v.origin v.kind L s

/-- `Exception::assert<X>(bool cond, int line)`:
`if (!cond) throw X(line);`. `some e` is the raised record, `none` a
normal return. -/
def assert (v : Variant) (cond : Bool) (L : Int) (s : TraceState) :
    Option Exception × TraceState :=
  if !cond then
    let p := throwX v L s
    (some p.1, p.2)
  else
    (none, s)

/-- `Exception::Type` (renamed: `Type` is reserved in Lean): the three
classifications `gwers`, `std`, `unknown` delivered to the handler. -/
inductive EType where
  | gwers
  | std
  | unknown
deriving DecidableEq

end Exception

/-- A value thrown out of the base function, by the catch clause that
would receive it in `base_catch`: a `Gwers::Exception` (or a variant of
it, caught by value as the base class), a `std::exception` that is not a
`Gwers::Exception` (carrying its description), or anything else. -/
inductive Thrown where
  | gwers (e : Exception)
  | std (d : String)
  | other
deriving DecidableEq

/-- Observable events of one `base_catch` invocation: the single call of
the base function (recording the recorder state it starts from), and any
call of the handler with the classification and payload pointers it is
handed (`none` models a null pointer). -/
inductive Event where
  | callBase (s : TraceState)
  | callHandler (t : Exception.EType) (e : Option Exception) (d : Option String)
deriving DecidableEq

/-- True exactly on a `callBase` event. -/
def Event.isBase : Event → Bool
  | .callBase _ => true
  | .callHandler _ _ _ => false

/-- True exactly on a `callHandler` event. -/
def Event.isHandler : Event → Bool
  | .callBase _ => false
  | .callHandler _ _ _ => true

namespace Exception

/-- `Exception::base_catch(fp base, efp handler)`:
`Trace::flush();` then `try { base(); }` with three catch clauses:
`catch (Exception e)` calls `handler(Type::gwers, &e, nullptr)`,
`catch (std::exception e)` calls `handler(Type::std, nullptr, &e)`,
`catch (...)` calls `handler(Type::unknown, nullptr, nullptr)`.
The base function receives the recorder state and returns the updated
state plus what (if anything) escaped it; `none` from the base marks
undefined behaviour inside it. The result is the final recorder state
and the event list of the invocation. -/
def base_catch (base : TraceState → Option (TraceState × Option Thrown))
    (s0 : TraceState) : Option (TraceState × List Event) :=
  let s1 := Trace.flush s0
  match base s1 with
  | none => none
  | some (s2, none) =>
      some (s2, [Event.callBase s1])
  | some (s2, some (Thrown.gwers e)) =>
      some (s2, [Event.callBase s1, Event.callHandler EType.gwers (some e) none])
  | some (s2, some (Thrown.std d)) =>
      some (s2, [Event.callBase s1, Event.callHandler EType.std none (some d)])
  | some (s2, some Thrown.other) =>
      some (s2, [Event.callBase s1, Event.callHandler EType.unknown none none])

end Exception

/-- An entry function that pushes the scopes `ls` (outermost first),
constructs a failure record `Exception(w, wh, L)` in the innermost
scope, and then lets all `ls.length` scopes exit by unwinding (each
running its `Trace` destructor) before the record escapes. -/
def unwindEntry (ls : List String) (w wh : String) (L : Int)
    (s : TraceState) : Option (TraceState × Option Thrown) :=
  let s1 := Trace.pushAll ls s
  let p := Exception.construct w wh L s1
  (Trace.releaseAll ls.length p.2).map (fun s3 => (s3, some (Thrown.gwers p.1)))

/-- GWX_ASSERT(T,X,L) with DEBUG undefined: the macro expands to
nothing, so the condition `T` (a computation on program state `σ` with a
boolean result) is never run and nothing is raised. -/
def GWX_ASSERT_off {σ : Type} (_T : σ → σ × Bool) (_v : Exception.Variant)
    (_L : Int) (st : σ) (s : TraceState) :
    σ × (Option Exception × TraceState) :=
  (st, (none, s))

/-- GWX_CHECK(T,X,L) with DEBUG undefined: the macro expands to `T;`,
so the underlying statement of `T` runs for its side effects but its
boolean result is discarded and nothing is ever raised. -/
def GWX_CHECK_off {σ : Type} (T : σ → σ × Bool) (_v : Exception.Variant)
    (_L : Int) (st : σ) (s : TraceState) :
    σ × (Option Exception × TraceState) :=
  ((T st).1, (none, s))

/-- Entering scopes appends the labels, in order, to the tail of the
stack and never touches the `_lock` flag. -/
theorem Trace.pushAll_eq (ls : List String) (s : TraceState) :
    Trace.pushAll ls s = ⟨s._stack ++ ls, s._lock⟩ := by
  induction ls generalizing s with
  | nil => simp [Trace.pushAll]
  | cons l ls ih =>
      show Trace.pushAll ls (Trace.push l s) = _
      rw [ih]
      simp [Trace.push]

/-- Once the recorder is locked, any number of destructor runs leave
the state unchanged. -/
theorem Trace.releaseAll_locked (n : Nat) (s : TraceState)
    (h : s._lock = true) :
    Trace.releaseAll n s = some s := by
  induction n with
  | zero => rfl
  | succ n ih => simp [Trace.releaseAll, Trace.destruct, h, ih]

/-- An unlocked destructor run on a non-empty stack pops the last
entry. -/
theorem Trace.destruct_unlocked (s : TraceState) (h : s._lock = false)
    (hne : s._stack ≠ []) :
    Trace.destruct s = some ⟨s._stack.dropLast, false⟩ := by
  obtain ⟨st, lk⟩ := s
  simp only at h hne
  subst h
  cases st with
  | nil => exact absurd rfl hne
  | cons a t => simp [Trace.destruct]

/-- `k` unlocked destructor runs on stack `l` leave the first
`l.length - k` entries (each run pops the tail, i.e. the most recent
unreleased push). -/
theorem Trace.releaseAll_unlocked (k : Nat) (l : List String)
    (hk : k ≤ l.length) :
    Trace.releaseAll k ⟨l, false⟩ =
      some ⟨l.take (l.length - k), false⟩ := by
  induction k generalizing l with
  | zero => simp [Trace.releaseAll]
  | succ k ih =>
      have hne : l ≠ [] := by
        intro he
        rw [he] at hk
        simp at hk
      rw [Trace.releaseAll,
        Trace.destruct_unlocked ⟨l, false⟩ rfl hne, Option.some_bind]
      rw [ih l.dropLast (by simp [List.length_dropLast]; omega)]
      have h1 : l.dropLast = l.take (l.length - 1) := List.dropLast_eq_take l
      have h2 : l.length - 1 - k = l.length - (k + 1) := by omega
      simp [List.length_dropLast, h1, List.take_take, h2,
        Nat.min_eq_left (by omega : l.length - (k + 1) ≤ l.length - 1)]

/-- C5: for every declared exception variant and line number L,
`Exception::assert` with a false condition raises that variant's record
(whose `line()` accessor returns L) and with a true condition raises
nothing and returns with the recorder state untouched. -/
theorem assert_false_raises_true_noop (v : Exception.Variant) (L : Int)
    (s : TraceState) :
    Exception.assert v false L s =
      (some ⟨v.origin, v.kind, L⟩, Trace.lock s) ∧
    Exception.line ⟨v.origin, v.kind, L⟩ = L ∧
    Exception.assert v true L s = (none, s) :=
  ⟨rfl, rfl, rfl⟩

/-- C6: the `Exception` constructor stores exactly the three arguments,
readable unchanged through `who()` / `what()` / `line()`, and its only
other effect is to set the recorder's `_lock` flag to true,
unconditionally, leaving the stack untouched. -/
theorem exception_construct_fields_and_freeze (w wh : String) (L : Int)
    (s : TraceState) :
    Exception.who (Exception.construct w wh L s).1 = w ∧
    Exception.what (Exception.construct w wh L s).1 = wh ∧
    Exception.line (Exception.construct w wh L s).1 = L ∧
    (Exception.construct w wh L s).2 = ⟨s._stack, true⟩ :=
  ⟨rfl, rfl, rfl, rfl⟩

/-- C8: pushes are never gated by the frozen flag — on a frozen
recorder a push still appends the label to the tail exactly as it would
on the unfrozen recorder with the same stack, while a destructor run in
the same frozen state removes nothing. -/
theorem push_not_gated_by_freeze (s : TraceState) (l : String)
    (h : s._lock = true) :
    (Trace.push l s)._stack = s._stack ++ [l] ∧
    (Trace.push l s)._stack = (Trace.push l ⟨s._stack, false⟩)._stack ∧
    Trace.destruct s = some s := by
  refine ⟨rfl, rfl, ?_⟩
  simp [Trace.destruct, h]

/-- C8 witness: on the frozen state with stack `a`, pushing `b` yields
stack `a, b` and a destructor run removes nothing. -/
theorem push_not_gated_by_freeze_witness :
    (Trace.push "b" ⟨["a"], true⟩)._stack = ["a"] ++ ["b"] ∧
    (Trace.push "b" ⟨["a"], true⟩)._stack =
      (Trace.push "b" ⟨["a"], false⟩)._stack ∧
    Trace.destruct ⟨["a"], true⟩ = some ⟨["a"], true⟩ :=
  push_not_gated_by_freeze ⟨["a"], true⟩ "b" rfl

/-- C9: with diagnostics compiled out, GWX_ASSERT expands to nothing —
the program state is untouched, nothing is raised, and the result does
not depend on the condition `T` at all (it is never evaluated) — while
GWX_CHECK still runs `T`'s underlying statement for its effect on the
program state but never checks the boolean result and never raises:
it is behaviourally the statement `T;` alone. -/
theorem disabled_guard_semantics {σ : Type} (T Tother : σ → σ × Bool)
    (v : Exception.Variant) (L : Int) (st : σ) (s : TraceState) :
    GWX_ASSERT_off T v L st s = (st, (none, s)) ∧
    GWX_ASSERT_off T v L st s = GWX_ASSERT_off Tother v L st s ∧
    GWX_CHECK_off T v L st s = ((T st).1, (none, s)) :=
  ⟨rfl, rfl, rfl⟩

/-- C10: when the recorder is unfrozen the destructor pops the last
stack entry with no emptiness guard: on a non-empty stack the pop is
defined and removes exactly the last element, on an empty stack it is
the undefined `pop_back` (`none`), and in particular a flush while a
push handle is still live followed by that handle's release hits the
empty-pop branch. -/
theorem release_unguarded_pop (s sother : TraceState)
    (h : s._lock = false) :
    (s._stack ≠ [] →
      Trace.destruct s = some ⟨s._stack.dropLast, false⟩) ∧
    (s._stack = [] → Trace.destruct s = none) ∧
    Trace.destruct (Trace.flush sother) = none := by
  refine ⟨fun hne => Trace.destruct_unlocked s h hne, fun he => ?_, rfl⟩
  obtain ⟨st, lk⟩ := s
  simp only at h he
  subst h
  subst he
  rfl

/-- C10 witness: on stack `a` unfrozen the pop removes `a`; on the
empty unfrozen stack the pop is undefined. -/
theorem release_unguarded_pop_witness :
    ((["a"] : List String) ≠ [] →
      Trace.destruct ⟨["a"], false⟩ = some ⟨(["a"] : List String).dropLast, false⟩) ∧
    ((["a"] : List String) = [] → Trace.destruct ⟨["a"], false⟩ = none) ∧
    Trace.destruct (Trace.flush ⟨["x"], true⟩) = none :=
  release_unguarded_pop ⟨["a"], false⟩ ⟨["x"], true⟩ rfl

/-- C1: if a failure record is constructed while the labels `ls` are
the active frames and all those scopes then exit by unwinding before
the dispatch boundary, the snapshot at the moment the handler runs is
still exactly `ls` in push order — the frozen stack is not shrunk by
any release after the freeze. -/
theorem known_failure_snapshot_frozen_through_unwind (ls : List String)
    (w wh : String) (L : Int) (s0 : TraceState) :
    Exception.base_catch (unwindEntry ls w wh L) s0 =
      some (⟨ls, true⟩,
        [Event.callBase ⟨[], false⟩,
         Event.callHandler Exception.EType.gwers (some ⟨w, wh, L⟩) none]) ∧
    Trace.snapshot ⟨ls, true⟩ = ls := by
  refine ⟨?_, rfl⟩
  have h1 : Trace.pushAll ls (⟨[], false⟩ : TraceState) = ⟨ls, false⟩ := by
    rw [Trace.pushAll_eq]
    rfl
  have h2 : Trace.releaseAll ls.length
      (⟨ls, true⟩ : TraceState) = some ⟨ls, true⟩ :=
    Trace.releaseAll_locked ls.length ⟨ls, true⟩ rfl
  simp [Exception.base_catch, unwindEntry, h1, Exception.construct,
    Trace.lock, Trace.flush, h2]

/-- C7: on a freshly reset recorder with no failure raised, after
pushing the labels `ls` the snapshot equals `ls` oldest-first, and
after any number `k ≤ ls.length` of the corresponding releases, run in
reverse (last-in-first-out) order, the snapshot equals exactly the
still-unreleased pushes in push order; after all of them it is empty. -/
theorem trace_push_release_lifo (ls : List String) (k : Nat)
    (s0 : TraceState) (hk : k ≤ ls.length) :
    Trace.snapshot (Trace.pushAll ls (Trace.flush s0)) = ls ∧
    Trace.releaseAll k (Trace.pushAll ls (Trace.flush s0)) =
      some ⟨ls.take (ls.length - k), false⟩ ∧
    Trace.releaseAll ls.length (Trace.pushAll ls (Trace.flush s0)) =
      some ⟨[], false⟩ := by
  have h1 : Trace.pushAll ls (Trace.flush s0) = ⟨ls, false⟩ := by
    rw [Trace.pushAll_eq]
    rfl
  refine ⟨by rw [h1]; rfl, ?_, ?_⟩
  · rw [h1, Trace.releaseAll_unlocked k ls hk]
  · rw [h1, Trace.releaseAll_unlocked ls.length ls (Nat.le_refl _)]
    simp

/-- C7 witness: pushing `a, b` on a fresh recorder and releasing once
leaves snapshot `a`; releasing both leaves the empty snapshot. -/
theorem trace_push_release_lifo_witness :
    Trace.snapshot (Trace.pushAll ["a", "b"] (Trace.flush ⟨[], false⟩)) =
      ["a", "b"] ∧
    Trace.releaseAll 1 (Trace.pushAll ["a", "b"] (Trace.flush ⟨[], false⟩)) =
      some ⟨(["a", "b"] : List String).take ((["a", "b"] : List String).length - 1), false⟩ ∧
    Trace.releaseAll (["a", "b"] : List String).length
        (Trace.pushAll ["a", "b"] (Trace.flush ⟨[], false⟩)) =
      some ⟨[], false⟩ :=
  trace_push_release_lifo ["a", "b"] 1 ⟨[], false⟩ (by decide)

/-- C2: for every failure that escapes the base function, the
classification delivered to the handler is determined by the failure's
type alone: a framework record is delivered as `gwers` with the record
itself (carrying its origin, kind and line) and a null std pointer, a
host-runtime error as `std` with only its description, and anything
else as `unknown` with neither payload; the three tags are pairwise
distinct, so the cases are mutually exclusive and a host-runtime error
is never delivered as `gwers`. -/
theorem base_catch_classification
    (base : TraceState → Option (TraceState × Option Thrown))
    (s0 s2 : TraceState) (th : Thrown)
    (h : base (Trace.flush s0) = some (s2, some th)) :
    Exception.base_catch base s0 =
      some (s2, [Event.callBase (Trace.flush s0),
        match th with
        | Thrown.gwers e => Event.callHandler Exception.EType.gwers (some e) none
        | Thrown.std d => Event.callHandler Exception.EType.std none (some d)
        | Thrown.other => Event.callHandler Exception.EType.unknown none none]) ∧
    (Exception.EType.gwers ≠ Exception.EType.std ∧
     Exception.EType.gwers ≠ Exception.EType.unknown ∧
     Exception.EType.std ≠ Exception.EType.unknown) := by
  refine ⟨?_, by decide, by decide, by decide⟩
  cases th <;> simp [Exception.base_catch, h]

/-- C2 witness: a base function raising a host-runtime error with
description `boom` is delivered to the handler as `std` with that
description and a null record pointer. -/
theorem base_catch_classification_witness :
    Exception.base_catch (fun s => some (s, some (Thrown.std "boom")))
        ⟨[], false⟩ =
      some (⟨[], false⟩, [Event.callBase (Trace.flush ⟨[], false⟩),
        Event.callHandler Exception.EType.std none (some "boom")]) ∧
    (Exception.EType.gwers ≠ Exception.EType.std ∧
     Exception.EType.gwers ≠ Exception.EType.unknown ∧
     Exception.EType.std ≠ Exception.EType.unknown) :=
  base_catch_classification (fun s => some (s, some (Thrown.std "boom")))
    ⟨[], false⟩ ⟨[], false⟩ (Thrown.std "boom") rfl

/-- C3: in every `base_catch` invocation the base function is called
exactly once, the handler is called exactly once when (and only when) a
failure escapes the base function, and when the base function returns
normally the boundary returns normally with the handler never
invoked. -/
theorem base_catch_calls_entry_once_handler_iff
    (base : TraceState → Option (TraceState × Option Thrown))
    (s0 s2 sf : TraceState) (r : Option Thrown) (evs : List Event)
    (h1 : base (Trace.flush s0) = some (s2, r))
    (h2 : Exception.base_catch base s0 = some (sf, evs)) :
    sf = s2 ∧
    evs.countP Event.isBase = 1 ∧
    evs.countP Event.isHandler = (if r.isSome then 1 else 0) ∧
    (r = none → evs = [Event.callBase (Trace.flush s0)]) := by
  rcases r with _ | th
  · simp [Exception.base_catch, h1] at h2
    obtain ⟨rfl, rfl⟩ := h2
    exact ⟨rfl, rfl, rfl, fun _ => by simp [Trace.flush]⟩
  · rcases th with e | d | _ <;>
      · simp [Exception.base_catch, h1] at h2
        obtain ⟨rfl, rfl⟩ := h2
        exact ⟨rfl, rfl, rfl, by simp⟩

/-- C3 witness: a base function returning normally is called once, the
handler is never called, and the boundary returns normally. -/
theorem base_catch_calls_entry_once_handler_iff_witness :
    (⟨[], false⟩ : TraceState) = ⟨[], false⟩ ∧
    ([Event.callBase ⟨[], false⟩] : List Event).countP Event.isBase = 1 ∧
    ([Event.callBase ⟨[], false⟩] : List Event).countP Event.isHandler =
      (if (none : Option Thrown).isSome then 1 else 0) ∧
    ((none : Option Thrown) = none →
      [Event.callBase ⟨[], false⟩] =
        [Event.callBase (Trace.flush ⟨[], false⟩)]) :=
  base_catch_calls_entry_once_handler_iff (fun s => some (s, none))
    ⟨[], false⟩ ⟨[], false⟩ ⟨[], false⟩ none
    [Event.callBase ⟨[], false⟩] rfl rfl

/-- C4: every `base_catch` invocation first resets the calling thread's
recorder — the base function starts from the empty, unfrozen state
regardless of any prior state (including a frozen stack left over from
an earlier failed invocation), so two sequential boundary invocations
on one thread behave identically whatever states they start from. -/
theorem base_catch_resets_recorder
    (base : TraceState → Option (TraceState × Option Thrown))
    (s0 sother sf : TraceState) (evs : List Event)
    (h : Exception.base_catch base s0 = some (sf, evs)) :
    Exception.base_catch base s0 = Exception.base_catch base sother ∧
    Trace.flush s0 = ⟨[], false⟩ ∧
    evs.head? = some (Event.callBase ⟨[], false⟩) := by
  refine ⟨rfl, rfl, ?_⟩
  rcases hb : base (Trace.flush s0) with _ | ⟨s2, r⟩
  · simp [Exception.base_catch, hb] at h
  · rcases r with _ | th
    · simp [Exception.base_catch, hb] at h
      obtain ⟨rfl, rfl⟩ := h
      rfl
    · rcases th with e | d | _ <;>
        · simp [Exception.base_catch, hb] at h
          obtain ⟨rfl, rfl⟩ := h
          rfl

/-- C4 witness: a second invocation on a thread whose recorder was left
frozen with a leftover frame behaves exactly as on a fresh thread, and
its base function starts from the empty, unfrozen state. -/
theorem base_catch_resets_recorder_witness :
    Exception.base_catch (fun s => some (s, none)) ⟨["x"], true⟩ =
      Exception.base_catch (fun s => some (s, none)) ⟨[], false⟩ ∧
    Trace.flush ⟨["x"], true⟩ = ⟨[], false⟩ ∧
    ([Event.callBase ⟨[], false⟩] : List Event).head? =
      some (Event.callBase ⟨[], false⟩) :=
  base_catch_resets_recorder (fun s => some (s, none)) ⟨["x"], true⟩
    ⟨[], false⟩ ⟨[], false⟩ [Event.callBase ⟨[], false⟩] rfl

end Gwers
